import Mathlib

/-!
Shallow embedding of the projection/scoring engine of the "2047 Predictions"
page of `app.py` (functions `create_strength_score`, `analyze_growth_trajectory`,
`predict_future_ranking`, and the pipeline that composes them).

Modelling choices:
* Floating-point numbers are modelled as rationals (`ℚ`); float arithmetic on the
  data involved is treated as exact.
* A pandas cell is `Cell`: a numeric value, a missing value (`NaN`), or a raw string.
* A pandas `DataFrame` of country records is a `List MRow`; the budget table is a
  `BudgetTable` (a list of year columns plus rows of cells).
* In-place mutation of a frame (`df[col] = ...`) is modelled by returning the
  post-call state of the input frame alongside the result.
* A raised exception is modelled as `Except.error`.
* `sklearn.StandardScaler` divides by the population standard deviation, i.e. by
  the square root of the population variance, replacing a zero scale by 1.
  Square roots are generally irrational, so the embedding passes the square-root
  function as an explicit parameter `s : ℚ → ℚ`; theorems that depend on the
  numeric value of a standard deviation assume that `s` behaves as a square root
  at the (finitely many) variances they touch.
-/

/-- One cell of a pandas column: a numeric value, a missing value (NaN),
or a raw string. -/
inductive Cell where
  | null : Cell
  | num : ℚ → Cell
  | str : String → Cell
deriving DecidableEq

/-- True when the cell holds a numeric value. -/
def Cell.isNum : Cell → Bool
  | .num _ => true
  | _ => false

/-- True when the cell holds a raw string. -/
def Cell.isStr : Cell → Bool
  | .str _ => true
  | _ => false

/-- Numeric value of a cell, with 0 for the non-numeric cases; only ever
applied to cells known to be numeric. -/
def cellVal : Cell → ℚ
  | .num q => q
  | _ => 0

/-- Fold a digit list into the natural number it denotes. -/
def digitsToNat (cs : List Char) : ℕ :=
  cs.foldl (fun a c => 10 * a + (c.toNat - 48)) 0

/-- Numeric-literal fragment of `pd.to_numeric`: an optional minus sign followed
by decimal digits parses to that integer; any other string fails to parse. -/
def parseNum (cs : List Char) : Option ℚ :=
  match cs with
  | [] => none
  | '-' :: rest =>
      if rest ≠ [] ∧ rest.all Char.isDigit then some (-(digitsToNat rest : ℚ)) else none
  | _ =>
      if cs.all Char.isDigit then some ((digitsToNat cs : ℚ)) else none

/-- `pd.to_numeric(col, errors='coerce')` on one cell: numbers stay, strings
parse to numbers or degrade to NaN, NaN stays NaN. -/
def toNumeric : Cell → Cell
  | .null => .null
  | .num q => .num q
  | .str s => match parseNum s.data with
    | some q => .num q
    | none => .null

/-- One row of the `military_strength` table: the columns the engine touches.
`pwr_index` is read but never coerced by the engine and is modelled as numeric. -/
structure MRow where
  country : String
  country_code : String
  pwr_index : ℚ
  total_national_populations : Cell
  active_service_military_manpower : Cell
  total_military_aircraft_strength : Cell
  total_combat_tank_strength : Cell
  navy_strength : Cell
  national_annual_defense_budgets : Cell
  purchasing_power_parities : Cell
deriving DecidableEq

/-- The seven indicator columns selected by `create_strength_score`, in source
order. -/
def powerColumns : List (MRow → Cell) :=
  [ (·.total_national_populations)
  , (·.active_service_military_manpower)
  , (·.total_military_aircraft_strength)
  , (·.total_combat_tank_strength)
  , (·.navy_strength)
  , (·.national_annual_defense_budgets)
  , (·.purchasing_power_parities) ]

/-- The in-place coercion loop: `df[col] = pd.to_numeric(df[col], errors='coerce')`
for each of the seven power columns. -/
def coerceRow (r : MRow) : MRow :=
  { r with
    total_national_populations := toNumeric r.total_national_populations
    active_service_military_manpower := toNumeric r.active_service_military_manpower
    total_military_aircraft_strength := toNumeric r.total_military_aircraft_strength
    total_combat_tank_strength := toNumeric r.total_combat_tank_strength
    navy_strength := toNumeric r.navy_strength
    national_annual_defense_budgets := toNumeric r.national_annual_defense_budgets
    purchasing_power_parities := toNumeric r.purchasing_power_parities }

/-- `df.dropna(subset=power_columns)` keeps the rows whose seven indicator cells
are all numeric. -/
def completeRow (r : MRow) : Bool :=
  powerColumns.all (fun f => (f r).isNum)

/-- Arithmetic mean of a list of rationals (0 on the empty list, via `0 / 0 = 0`). -/
def mean (l : List ℚ) : ℚ := l.sum / l.length

/-- Population variance of a list (division by N, not N - 1), as used by
`StandardScaler`. -/
def popVar (l : List ℚ) : ℚ :=
  ((l.map (fun x => (x - mean l) ^ 2)).sum) / l.length

/-- The scale `StandardScaler` divides by: the standard deviation
`s (popVar l)`, with a zero scale replaced by 1 (sklearn's
handling of zeros in scale). `s` is the square-root parameter. -/
def scaleOf (s : ℚ → ℚ) (l : List ℚ) : ℚ :=
  if s (popVar l) = 0 then 1 else s (popVar l)

/-- Standardized value of `x` against column `l`: subtract the column mean,
divide by the column scale. -/
def zscore (s : ℚ → ℚ) (l : List ℚ) (x : ℚ) : ℚ :=
  (x - mean l) / scaleOf s l

/-- The numeric values of indicator column `f` across the surviving rows. -/
def colVals (f : MRow → Cell) (cs : List MRow) : List ℚ :=
  cs.map (fun r => cellVal (f r))

/-- One row of the scorer's output frame: country, carried-through power index,
the seven standardized values (in `powerColumns` order), and the composite
score. -/
structure SRow where
  country : String
  pwr_index : ℚ
  zvals : List ℚ
  strength_score : ℚ
deriving DecidableEq

/-- Build one output row of `create_strength_score`: standardize the row's seven
indicator values against the surviving set `cs` and average them
(`scaled_df.mean(axis=1)`). -/
def mkSRow (s : ℚ → ℚ) (cs : List MRow) (r : MRow) : SRow :=
  let zs := powerColumns.map (fun f => zscore s (colVals f cs) (cellVal (f r)))
  { country := r.country
    pwr_index := r.pwr_index
    zvals := zs
    strength_score := zs.sum / zs.length }

/-- Sort relation of `sort_values('strength_score', ascending=False)`. -/
def strengthDesc (a b : SRow) : Prop := b.strength_score ≤ a.strength_score

instance : DecidableRel strengthDesc :=
  fun a b => inferInstanceAs (Decidable (b.strength_score ≤ a.strength_score))

instance : IsTotal SRow strengthDesc :=
  ⟨fun a b => le_total b.strength_score a.strength_score⟩

instance : IsTrans SRow strengthDesc :=
  ⟨fun _ _ _ h1 h2 => le_trans h2 h1⟩

/-- The error `sklearn` raises when `StandardScaler.fit_transform` is given zero
samples. -/
def scalerEmptyMsg : String :=
  "ValueError: Found array with 0 sample(s) while a minimum of 1 is required"

/-- `create_strength_score(df)`: coerce the seven indicator columns in place,
drop incomplete rows, standardize the surviving matrix, average into
`strength_score`, and sort descending. The first component is the state of the
input frame after the call (the in-place coercion); the second is the returned
frame, or the exception `fit_transform` raises when no row survives. -/
def create_strength_score (s : ℚ → ℚ) (df : List MRow) :
    List MRow × Except String (List SRow) :=
  let dfC := df.map coerceRow
  let clean := dfC.filter completeRow
  (dfC,
    if clean.isEmpty then .error scalerEmptyMsg
    else .ok (List.insertionSort strengthDesc (clean.map (mkSRow s clean))))

/-- One row of the `defense_budget` table: a country code plus the cells of the
year columns, positionally aligned with `BudgetTable.yearCols`. -/
structure BRow where
  code : String
  values : List Cell
deriving DecidableEq

/-- The `defense_budget` frame: the year columns it has, and its rows. -/
structure BudgetTable where
  yearCols : List ℕ
  rows : List BRow
deriving DecidableEq

/-- Python `dict(zip(keys, values)).get(k)`: the value of the last binding of
`k`, if any. -/
def dictGet (pairs : List (String × String)) (k : String) : Option String :=
  (pairs.reverse.find? (fun p => p.1 == k)).map (·.2)

/-- `dict(zip(military_strength['country'], military_strength['country_code']))`. -/
def codeMapping (ms : List MRow) : List (String × String) :=
  ms.map (fun r => (r.country, r.country_code))

/-- The year columns selected for the regression:
`[str(y) for y in range(2000, 2021) if str(y) in country_budget.columns]`. -/
def selectedYears (bt : BudgetTable) : List ℕ :=
  (List.range' 2000 21).filter (fun y => bt.yearCols.contains y)

/-- Value of column `y` in a budget row (label-based column selection). -/
def colGet (cols : List ℕ) (vals : List Cell) (y : ℕ) : Cell :=
  (((cols.zip vals).find? (fun p => p.1 == y)).map (·.2)).getD .null

/-- `country_budget[years].values[0]`: the row's cells at the selected years. -/
def rowValues (bt : BudgetTable) (r : BRow) : List Cell :=
  (selectedYears bt).map (colGet bt.yearCols r.values)

/-- The valid data points of a value list: pairs of position within the list
and numeric value, for the non-NaN positions
(`valid_indices = ~np.isnan(values)` applied to both `X` and `y`). The
positions of discarded cells are skipped, so the kept positions are not
renumbered. -/
def validPoints (values : List Cell) : List (ℕ × ℚ) :=
  values.enum.filterMap (fun p =>
    match p.2 with
    | .num q => some (p.1, q)
    | _ => none)

/-- Slope of the ordinary least-squares line through the points `zip xs ys`
(the single coefficient `LinearRegression` fits on one feature). -/
def olsSlope (xs ys : List ℚ) : ℚ :=
  let xm := mean xs
  let ym := mean ys
  (((xs.zip ys).map (fun p => (p.1 - xm) * (p.2 - ym))).sum) /
    ((xs.map (fun x => (x - xm) ^ 2)).sum)

/-- The slope the source fits for a value list: OLS of the valid values against
their (gapped) positions within the list. -/
def fitSlope (values : List Cell) : ℚ :=
  olsSlope ((validPoints values).map (fun p => (p.1 : ℚ))) ((validPoints values).map (·.2))

/-- The body of the per-country `try` block of `analyze_growth_trajectory`:
resolve the country code (`''` and a missing key are both falsy), take the
first matching budget row, select the year columns in [2000, 2020], and fit
the regression when more than 5 valid points remain. `np.isnan` on a value
list containing a raw string raises, modelled as `Except.error`. -/
def growthBody (ms : List MRow) (bt : BudgetTable) (name : String) : Except String ℚ :=
  match dictGet (codeMapping ms) name with
  | none => .ok 0
  | some code =>
    if code = "" then .ok 0
    else
      match bt.rows.filter (fun r => r.code == code) with
      | [] => .ok 0
      | r :: _ =>
        if (selectedYears bt).isEmpty then .ok 0
        else
          if (rowValues bt r).any Cell.isStr then .error "TypeError: isnan"
          else
            if 5 < (validPoints (rowValues bt r)).length then
              .ok (fitSlope (rowValues bt r))
            else
              .ok 0

/-- The per-country growth score: the body's value, degraded to 0 by the
`except` clause when the body raises. -/
def growthScore (ms : List MRow) (bt : BudgetTable) (name : String) : ℚ :=
  match growthBody ms bt name with
  | .ok g => g
  | .error _ => 0

/-- The raw growth-score column, one entry per row of the scorer's output, in
order. -/
def rawGrowthScores (ms : List MRow) (bt : BudgetTable) (sdf : List SRow) : List ℚ :=
  sdf.map (fun r => growthScore ms bt r.country)

/-- Minimum of a list of rationals (`Series.min`); 0 on the empty list. -/
def listMin : List ℚ → ℚ
  | [] => 0
  | x :: xs => xs.foldl min x

/-- Maximum of a list of rationals (`Series.max`); 0 on the empty list. -/
def listMax : List ℚ → ℚ
  | [] => 0
  | x :: xs => xs.foldl max x

/-- One row of the frame `analyze_growth_trajectory` returns (and
`predict_future_ranking` extends). The seven standardized columns also carried
by the source frame are not used downstream and are dropped here.
`projection_score` is `none` while that column has not been assigned yet. -/
structure GRow where
  country : String
  strength_score : ℚ
  pwr_index : ℚ
  growth_score : ℚ
  growth_score_normalized : ℚ
  projection_score : Option ℚ
deriving DecidableEq

/-- `analyze_growth_trajectory(strength_df, budget_df)`: compute the raw growth
score of every country of `strength_df` (reading the country→code mapping from
the global `military_strength` frame `ms`), then min-max normalize across the
whole column, guarding `max == min` with 0. Column assignment is positional,
i.e. a per-row map. -/
def analyze_growth_trajectory (ms : List MRow) (bt : BudgetTable) (sdf : List SRow) :
    List GRow :=
  let gmin := listMin (rawGrowthScores ms bt sdf)
  let gmax := listMax (rawGrowthScores ms bt sdf)
  sdf.map (fun r =>
    let g := growthScore ms bt r.country
    { country := r.country
      strength_score := r.strength_score
      pwr_index := r.pwr_index
      growth_score := g
      growth_score_normalized := if gmin < gmax then (g - gmin) / (gmax - gmin) else 0
      projection_score := none })

/-- The strength weight of the ranker: 0.7, reassigned to 0.5 when the
projection horizon `target_year - 2024` exceeds 10 years. -/
def strength_weight (targetYear : ℤ) : ℚ :=
  if 10 < targetYear - 2024 then 1 / 2 else 7 / 10

/-- The growth weight of the ranker: 0.3, reassigned to 0.5 when the projection
horizon exceeds 10 years. -/
def growth_weight (targetYear : ℤ) : ℚ :=
  if 10 < targetYear - 2024 then 1 / 2 else 3 / 10

/-- The projection score of one row:
`strength_weight * strength_score + growth_weight * growth_score_normalized - 0.2 * pwr_index`. -/
def projectionScore (targetYear : ℤ) (r : GRow) : ℚ :=
  strength_weight targetYear * r.strength_score +
    growth_weight targetYear * r.growth_score_normalized -
    (1 / 5) * r.pwr_index

/-- Sort relation of `sort_values('projection_score', ascending=False)`; the
column is always assigned before the sort, so the `none` default is inert. -/
def projDesc (a b : GRow) : Prop :=
  b.projection_score.getD 0 ≤ a.projection_score.getD 0

instance : DecidableRel projDesc :=
  fun a b => inferInstanceAs (Decidable (b.projection_score.getD 0 ≤ a.projection_score.getD 0))

instance : IsTotal GRow projDesc :=
  ⟨fun a b => le_total (b.projection_score.getD 0) (a.projection_score.getD 0)⟩

instance : IsTrans GRow projDesc :=
  ⟨fun _ _ _ h1 h2 => le_trans h2 h1⟩

/-- `predict_future_ranking(df, target_year)`: write the `projection_score`
column into the given frame, then return it sorted descending by that column.
The first component is the state of the input frame after the call (the
in-place column assignment); the second is the returned sorted frame. -/
def predict_future_ranking (df : List GRow) (targetYear : ℤ) :
    List GRow × List GRow :=
  let scored := df.map (fun r => { r with projection_score := some (projectionScore targetYear r) })
  (scored, List.insertionSort projDesc scored)

/-- The whole prediction pipeline of the page body: score strengths (mutating
the global `military_strength` frame `ms` by coercion), analyze growth
trajectories against the mutated global, and rank. Returns the state of the
global frame after the run, and the final ranking or the exception the page's
handler catches. -/
def runPipeline (s : ℚ → ℚ) (ms : List MRow) (bt : BudgetTable) (targetYear : ℤ) :
    List MRow × Except String (List GRow) :=
  let res := create_strength_score s ms
  (res.1,
    res.2.map (fun sdf =>
      (predict_future_ranking (analyze_growth_trajectory res.1 bt sdf) targetYear).2))

/-- Modelled from the spec's words, for comparison with the source's
`fitSlope`: an ordinary least-squares regression of the valid (non-null)
values against a 0-based sequential index over the valid values only, so that
positions discarded as null do not appear in the regressor. -/
def spec_sequential_slope (values : List Cell) : ℚ :=
  let ys := values.filterMap (fun c =>
    match c with
    | Cell.num q => some q
    | _ => none)
  olsSlope ((List.range ys.length).map (fun n => (n : ℚ))) ys

/-- A complete country row whose seven indicator cells all hold the same
numeric value; used as concrete test data. -/
def mkMRow (name code : String) (pwr v : ℚ) : MRow :=
  { country := name, country_code := code, pwr_index := pwr,
    total_national_populations := .num v, active_service_military_manpower := .num v,
    total_military_aircraft_strength := .num v, total_combat_tank_strength := .num v,
    navy_strength := .num v, national_annual_defense_budgets := .num v,
    purchasing_power_parities := .num v }

/-- Concrete budget series with a null gap: linear of slope 1 in the sequential
valid-year index, with year 2006 missing. -/
def c1Vals : List Cell :=
  [.num 0, .num 1, .num 2, .num 3, .num 4, .num 5, .null, .num 6]

/-- Concrete budget row holding `c1Vals`. -/
def c1Row : BRow := { code := "AAA", values := c1Vals }

/-- Concrete one-country frame for the regression claims. -/
def c1Ms : List MRow := [mkMRow "A" "AAA" 0 1]

/-- Concrete budget table with the gapped series `c1Vals` on years 2000-2007. -/
def c1Bt : BudgetTable :=
  { yearCols := [2000, 2001, 2002, 2003, 2004, 2005, 2006, 2007], rows := [c1Row] }

/-- Concrete budget table with a dense linear series of slope 2 on years
2000-2005. -/
def c1BtW : BudgetTable :=
  { yearCols := [2000, 2001, 2002, 2003, 2004, 2005],
    rows := [{ code := "AAA",
               values := [.num 10, .num 12, .num 14, .num 16, .num 18, .num 20] }] }

/-- A country row with a missing indicator (null population). -/
def c3Row : MRow :=
  { country := "A", country_code := "AAA", pwr_index := 1,
    total_national_populations := .null, active_service_military_manpower := .num 1,
    total_military_aircraft_strength := .num 1, total_combat_tank_strength := .num 1,
    navy_strength := .num 1, national_annual_defense_budgets := .num 1,
    purchasing_power_parities := .num 1 }

/-- Two complete countries with indicator values 3 and 1 in every column. -/
def c5Ms : List MRow := [mkMRow "A" "AAA" 1 3, mkMRow "B" "BBB" 2 1]

/-- Expected first output row of the scorer on `c5Ms`. -/
def c5OutA : SRow :=
  { country := "A", pwr_index := 1, zvals := [1, 1, 1, 1, 1, 1, 1], strength_score := 1 }

/-- Expected second output row of the scorer on `c5Ms`. -/
def c5OutB : SRow :=
  { country := "B", pwr_index := 2,
    zvals := [-1, -1, -1, -1, -1, -1, -1], strength_score := -1 }

/-- Concrete budget table with exactly 5 valid years of scattered values. -/
def c6Bt : BudgetTable :=
  { yearCols := [2000, 2001, 2002, 2003, 2004],
    rows := [{ code := "AAA", values := [.num 100, .num 5, .num 700, .num 3, .num 99] }] }

/-- Concrete two-country strength frame fed to the growth estimator. -/
def c7Sdf : List SRow :=
  [ { country := "A", pwr_index := 1, zvals := [], strength_score := 0 }
  , { country := "B", pwr_index := 2, zvals := [], strength_score := 0 } ]

/-- Concrete two-country global frame for the growth estimator. -/
def c7Ms : List MRow := [mkMRow "A" "AAA" 1 1, mkMRow "B" "BBB" 2 1]

/-- Budget table with data for country A only: dense linear series of slope 2. -/
def c7Bt : BudgetTable :=
  { yearCols := [2000, 2001, 2002, 2003, 2004, 2005],
    rows := [{ code := "AAA", values := [.num 0, .num 2, .num 4, .num 6, .num 8, .num 10] }] }

/-- Budget table with no rows at all: every growth score degrades to 0. -/
def c7BtE : BudgetTable :=
  { yearCols := [2000, 2001, 2002, 2003, 2004, 2005], rows := [] }

/-- Surviving set whose columns are all constant. -/
def c8CsConst : List MRow := [mkMRow "A" "AAA" 1 4, mkMRow "B" "BBB" 2 4]

/-- Surviving set whose columns take the two values 1 and 3 (population
variance 1). -/
def c8CsVar : List MRow := [mkMRow "A" "AAA" 1 1, mkMRow "B" "BBB" 2 3]

/-- Budget table where country A's series contains a raw string (so `np.isnan`
raises for A) while country B has a clean dense linear series of slope 2. -/
def c9Bt : BudgetTable :=
  { yearCols := [2000, 2001, 2002, 2003, 2004, 2005],
    rows := [ { code := "AAA",
                values := [.num 1, .num 2, .str "bad", .num 4, .num 5, .num 6] }
            , { code := "BBB",
                values := [.num 0, .num 2, .num 4, .num 6, .num 8, .num 10] } ] }

/-- Strength frame listing the two countries of `c9Bt`. -/
def c9Sdf : List SRow :=
  [ { country := "A", pwr_index := 1, zvals := [], strength_score := 0 }
  , { country := "B", pwr_index := 2, zvals := [], strength_score := 0 } ]

/-! ### Helper lemmas about the embedded operations -/

lemma toNumeric_idem (c : Cell) : toNumeric (toNumeric c) = toNumeric c := by
  cases c with
  | null => rfl
  | num q => rfl
  | str s =>
    simp only [toNumeric]
    cases h : parseNum s.data with
    | none => rfl
    | some q => rfl

lemma coerceRow_idem (r : MRow) : coerceRow (coerceRow r) = coerceRow r := by
  simp [coerceRow, toNumeric_idem]

lemma map_coerceRow_idem (l : List MRow) :
    (l.map coerceRow).map coerceRow = l.map coerceRow := by
  rw [List.map_map]
  exact List.map_congr_left (fun r _ => coerceRow_idem r)

lemma length_cast_ne_zero {l : List ℚ} (h : l ≠ []) : ((l.length : ℚ)) ≠ 0 :=
  Nat.cast_ne_zero.mpr (Nat.pos_iff_ne_zero.mp (List.length_pos.mpr h))

lemma sum_of_const {l : List ℚ} {c : ℚ} (h : ∀ x ∈ l, x = c) :
    l.sum = l.length * c := by
  induction l with
  | nil => simp
  | cons a t ih =>
    have ha := h a (by simp)
    have ht := ih (fun x hx => h x (by simp [hx]))
    simp only [List.sum_cons, ht, ha, List.length_cons]
    push_cast
    ring

lemma mean_const {l : List ℚ} {c : ℚ} (hne : l ≠ []) (h : ∀ x ∈ l, x = c) :
    mean l = c := by
  rw [mean, sum_of_const h, mul_comm, mul_div_assoc, div_self (length_cast_ne_zero hne),
    mul_one]

lemma sum_map_affine (l : List ℚ) (a m : ℚ) :
    (l.map (fun x => a + m * x)).sum = l.length * a + m * l.sum := by
  induction l with
  | nil => simp
  | cons x t ih =>
    simp only [List.map_cons, List.sum_cons, ih, List.length_cons]
    push_cast
    ring

lemma mean_map_affine {l : List ℚ} (hne : l ≠ []) (a m : ℚ) :
    mean (l.map (fun x => a + m * x)) = a + m * mean l := by
  have h0 := length_cast_ne_zero hne
  rw [mean, sum_map_affine, List.length_map, mean]
  field_simp
  ring

lemma sum_sq_nonneg (l : List ℚ) : 0 ≤ (l.map (fun x => x ^ 2)).sum :=
  List.sum_nonneg (by
    intro x hx
    obtain ⟨y, _, rfl⟩ := List.mem_map.mp hx
    exact sq_nonneg y)

lemma sum_sq_eq_zero {l : List ℚ} (h : (l.map (fun x => x ^ 2)).sum = 0) :
    ∀ x ∈ l, x = 0 := by
  induction l with
  | nil => simp
  | cons a t ih =>
    rw [List.map_cons, List.sum_cons] at h
    have h1 : a ^ 2 = 0 ∧ ((t.map (fun x => x ^ 2)).sum) = 0 :=
      (add_eq_zero_iff_of_nonneg (sq_nonneg a) (sum_sq_nonneg t)).mp h
    intro x hx
    rcases List.mem_cons.mp hx with rfl | hx
    · exact pow_eq_zero_iff (two_ne_zero) |>.mp h1.1
    · exact ih h1.2 x hx

lemma zip_self_map {α β : Type} (l : List α) (f : α → β) :
    l.zip (l.map f) = l.map (fun x => (x, f x)) := by
  induction l with
  | nil => rfl
  | cons a t ih => simp [ih]

lemma sxx_ne_zero {xs : List ℚ} (hx : ∃ u ∈ xs, ∃ v ∈ xs, u ≠ v) :
    (xs.map (fun x => (x - mean xs) ^ 2)).sum ≠ 0 := by
  obtain ⟨u, hu, v, hv, huv⟩ := hx
  intro h0
  have hmm : ((xs.map (fun x => x - mean xs)).map (fun x => x ^ 2)).sum = 0 := by
    rw [List.map_map]
    exact h0
  have hz := sum_sq_eq_zero hmm
  have hu0 : u - mean xs = 0 := hz _ (List.mem_map_of_mem _ hu)
  have hv0 : v - mean xs = 0 := hz _ (List.mem_map_of_mem _ hv)
  exact huv (by linarith)

lemma olsSlope_linear {xs : List ℚ} (a m : ℚ) (hx : ∃ u ∈ xs, ∃ v ∈ xs, u ≠ v) :
    olsSlope xs (xs.map (fun x => a + m * x)) = m := by
  have hne : xs ≠ [] := by
    rintro rfl
    simp at hx
  have hym := mean_map_affine hne a m
  have hzip := zip_self_map xs (fun x => a + m * x)
  simp only [olsSlope, hzip, hym, List.map_map]
  have hnum : (xs.map ((fun p : ℚ × ℚ => (p.1 - mean xs) * (p.2 - (a + m * mean xs))) ∘
      (fun x => (x, a + m * x)))).sum = m * (xs.map (fun x => (x - mean xs) ^ 2)).sum := by
    rw [← List.sum_map_mul_left]
    exact congrArg List.sum (List.map_congr_left (fun x _ => by
      simp only [Function.comp_apply]
      ring))
  rw [hnum, mul_div_assoc, div_self (sxx_ne_zero hx), mul_one]

lemma filterMap_num_fst_sublist (l : List (ℕ × Cell)) :
    ((l.filterMap (fun p =>
        match p.2 with
        | Cell.num q => some (p.1, q)
        | _ => none)).map Prod.fst).Sublist (l.map Prod.fst) := by
  induction l with
  | nil => simp
  | cons p t ih =>
    rcases p with ⟨i, c⟩
    cases c with
    | num q =>
      simpa [List.filterMap_cons] using ih.cons₂ i
    | null =>
      simpa [List.filterMap_cons] using ih.cons i
    | str s =>
      simpa [List.filterMap_cons] using ih.cons i

lemma validPoints_fst_nodup (values : List Cell) :
    ((validPoints values).map Prod.fst).Nodup :=
  (filterMap_num_fst_sublist values.enum).nodup (List.nodup_enum_map_fst values)

lemma fit_xs_nodup (values : List Cell) :
    ((validPoints values).map (fun p => ((p.1 : ℕ) : ℚ))).Nodup := by
  have h1 := (validPoints_fst_nodup values).map
    (f := fun n : ℕ => (n : ℚ)) (fun a b hab => Nat.cast_injective hab)
  rw [List.map_map] at h1
  exact h1

lemma nodup_two_distinct {l : List ℚ} (hn : l.Nodup) (hl : 2 ≤ l.length) :
    ∃ u ∈ l, ∃ v ∈ l, u ≠ v := by
  rcases l with _ | ⟨a, _ | ⟨b, t⟩⟩
  · simp at hl
  · simp at hl
  · refine ⟨a, by simp, b, by simp, fun hab => ?_⟩
    exact (List.nodup_cons.mp hn).1 (hab ▸ List.mem_cons_self b t)

lemma foldl_min_le_init (l : List ℚ) (x : ℚ) : l.foldl min x ≤ x := by
  induction l generalizing x with
  | nil => simp
  | cons a t ih => exact le_trans (ih (min x a)) (min_le_left x a)

lemma init_le_foldl_max (l : List ℚ) (x : ℚ) : x ≤ l.foldl max x := by
  induction l generalizing x with
  | nil => simp
  | cons a t ih => exact le_trans (le_max_left x a) (ih (max x a))

lemma listMin_le_listMax {l : List ℚ} (h : l ≠ []) : listMin l ≤ listMax l := by
  rcases l with _ | ⟨a, t⟩
  · simp at h
  · exact le_trans (foldl_min_le_init t a) (init_le_foldl_max t a)

lemma selectedYears_ne_nil_of_points (bt : BudgetTable) (r : BRow)
    (hcount : 0 < (validPoints (rowValues bt r)).length) :
    (selectedYears bt).isEmpty = false := by
  cases h : (selectedYears bt).isEmpty with
  | false => rfl
  | true =>
    have hy : selectedYears bt = [] := List.isEmpty_iff.mp h
    rw [rowValues, hy] at hcount
    simp [validPoints] at hcount

lemma growthBody_reaches (ms : List MRow) (bt : BudgetTable) (name code : String)
    (r : BRow) (rest : List BRow)
    (hcode : dictGet (codeMapping ms) name = some code) (hne : code ≠ "")
    (hrow : bt.rows.filter (fun x => x.code == code) = r :: rest)
    (hstr : (rowValues bt r).any Cell.isStr = false)
    (hcount : 5 < (validPoints (rowValues bt r)).length) :
    growthBody ms bt name = .ok (fitSlope (rowValues bt r)) := by
  have hyears := selectedYears_ne_nil_of_points bt r (by omega)
  simp only [growthBody, hcode, hrow, hyears, hstr, Bool.false_eq_true, if_false,
    if_neg hne, if_pos hcount]

lemma growthBody_few (ms : List MRow) (bt : BudgetTable) (name code : String)
    (r : BRow) (rest : List BRow)
    (hcode : dictGet (codeMapping ms) name = some code) (hne : code ≠ "")
    (hrow : bt.rows.filter (fun x => x.code == code) = r :: rest)
    (hstr : (rowValues bt r).any Cell.isStr = false)
    (hcount : ¬ 5 < (validPoints (rowValues bt r)).length) :
    growthBody ms bt name = .ok 0 := by
  cases hyears : (selectedYears bt).isEmpty with
  | true =>
    simp only [growthBody, hcode, hrow, hyears, if_true, if_neg hne]
  | false =>
    simp only [growthBody, hcode, hrow, hyears, hstr, Bool.false_eq_true, if_false,
      if_neg hne, if_neg hcount]

lemma growthScore_of_body_ok {ms : List MRow} {bt : BudgetTable} {name : String} {g : ℚ}
    (h : growthBody ms bt name = .ok g) : growthScore ms bt name = g := by
  simp [growthScore, h]

lemma growthScore_of_body_error {ms : List MRow} {bt : BudgetTable} {name e : String}
    (h : growthBody ms bt name = .error e) : growthScore ms bt name = 0 := by
  simp [growthScore, h]

lemma growthScore_of_lookup_none {ms : List MRow} {bt : BudgetTable} {name : String}
    (h : dictGet (codeMapping ms) name = none) : growthScore ms bt name = 0 := by
  simp [growthScore, growthBody, h]

/-! ### Claim theorems -/

/-- C2: for every input table and target year, the Projection Ranker scores each
row as strength_weight * strength_score + growth_weight * growth_score_normalized
- 0.2 * pwr_index, with weights (0.5, 0.5) exactly when target_year - 2024 > 10
and (0.7, 0.3) otherwise (2034 uses 0.7/0.3, 2035 uses 0.5/0.5), and returns the
scored table sorted descending by projection_score. -/
theorem projection_ranker_spec (df : List GRow) (ty : ℤ) :
    (∀ r ∈ (predict_future_ranking df ty).2,
        r.projection_score = some (strength_weight ty * r.strength_score +
          growth_weight ty * r.growth_score_normalized - (1 / 5) * r.pwr_index))
    ∧ (10 < ty - 2024 → strength_weight ty = 1 / 2 ∧ growth_weight ty = 1 / 2)
    ∧ (ty - 2024 ≤ 10 → strength_weight ty = 7 / 10 ∧ growth_weight ty = 3 / 10)
    ∧ (strength_weight 2034 = 7 / 10 ∧ growth_weight 2034 = 3 / 10 ∧
        strength_weight 2035 = 1 / 2 ∧ growth_weight 2035 = 1 / 2)
    ∧ List.Sorted projDesc (predict_future_ranking df ty).2
    ∧ (predict_future_ranking df ty).2.Perm (predict_future_ranking df ty).1 := by
  refine ⟨?_, ?_, ?_, ?_, ?_, ?_⟩
  · intro r hr
    simp only [predict_future_ranking, List.mem_insertionSort] at hr
    obtain ⟨r0, _, rfl⟩ := List.mem_map.mp hr
    rfl
  · intro h
    constructor <;> simp [strength_weight, growth_weight, h]
  · intro h
    constructor <;> simp [strength_weight, growth_weight, not_lt.mpr h]
  · refine ⟨?_, ?_, ?_, ?_⟩ <;> norm_num [strength_weight, growth_weight]
  · exact List.sorted_insertionSort projDesc _
  · exact List.perm_insertionSort projDesc _

/-- C2 witness: the theorem applied to a concrete one-row table at target year
2047. -/
theorem projection_ranker_spec_wit :
    (GRow.mk "A" 1 2 3 (1 / 2) (some (7 / 20))).projection_score =
      some (strength_weight 2047 * (GRow.mk "A" 1 2 3 (1 / 2) (some (7 / 20))).strength_score +
        growth_weight 2047 * (GRow.mk "A" 1 2 3 (1 / 2) (some (7 / 20))).growth_score_normalized -
        (1 / 5) * (GRow.mk "A" 1 2 3 (1 / 2) (some (7 / 20))).pwr_index) := by
  refine (projection_ranker_spec [GRow.mk "A" 1 2 3 (1 / 2) none] 2047).1 _ ?_
  norm_num [predict_future_ranking, projectionScore, strength_weight, growth_weight,
    List.insertionSort, List.orderedInsert]

/-- C3 counterexample: on a frame whose only row misses one indicator, zero
countries survive the complete-case filter and the scorer raises (the sklearn
empty-sample error) instead of returning an empty table. -/
theorem empty_survivors_raises_cex :
    (create_strength_score (fun _ => 1) [c3Row]).2 = Except.error scalerEmptyMsg
    ∧ (create_strength_score (fun _ => 1) [c3Row]).2 ≠ Except.ok [] := by
  constructor
  · simp +decide [create_strength_score, c3Row, coerceRow, toNumeric, completeRow,
      powerColumns, Cell.isNum]
  · simp +decide [create_strength_score, c3Row, coerceRow, toNumeric, completeRow,
      powerColumns, Cell.isNum]

/-- C3 amended: whenever zero countries survive the complete-case filter, the
Strength Scorer raises the empty-sample error (to be caught by the page-level
handler) rather than returning an empty result table. -/
theorem empty_survivors_error (s : ℚ → ℚ) (ms : List MRow)
    (h : (ms.map coerceRow).filter completeRow = []) :
    (create_strength_score s ms).2 = Except.error scalerEmptyMsg := by
  simp [create_strength_score, h]

/-- C3 witness: the amended theorem applied to the concrete one-row frame. -/
theorem empty_survivors_error_wit :
    (create_strength_score (fun _ => 1) [c3Row]).2 = Except.error scalerEmptyMsg :=
  empty_survivors_error _ _ (by decide)

/-- C4 counterexample: both core components mutate the table they are given:
the ranker writes the projection_score column into its input, and the scorer
coerces the indicator columns of its input in place (here a raw string cell
degrades to null). -/
theorem rankers_mutate_inputs_cex :
    (predict_future_ranking [GRow.mk "B" 1 2 3 4 none] 2047).1 ≠
      [GRow.mk "B" 1 2 3 4 none]
    ∧ (create_strength_score (fun _ => 1)
        [{ c3Row with total_national_populations := Cell.str "x" }]).1 ≠
      [{ c3Row with total_national_populations := Cell.str "x" }] := by
  constructor
  · decide
  · decide

/-- C4 amended: the Strength Scorer coerces the seven indicator columns of its
input in place (leaving country, country_code and pwr_index unchanged), and the
Projection Ranker writes the projection_score column into the table it is given
(changing nothing else), returning a new table that is the sorted copy of that
mutated input. -/
theorem mutation_frame_amended (s : ℚ → ℚ) (ms : List MRow) (df : List GRow) (ty : ℤ) :
    (create_strength_score s ms).1 = ms.map coerceRow
    ∧ (predict_future_ranking df ty).1 =
        df.map (fun r => { r with projection_score := some (projectionScore ty r) })
    ∧ (predict_future_ranking df ty).2 =
        List.insertionSort projDesc (predict_future_ranking df ty).1
    ∧ ∀ r : MRow, (coerceRow r).country = r.country ∧
        (coerceRow r).country_code = r.country_code ∧
        (coerceRow r).pwr_index = r.pwr_index :=
  ⟨rfl, rfl, rfl, fun _ => ⟨rfl, rfl, rfl⟩⟩

/-- C6: for a country whose budget row is reached, fewer than 6 valid
(non-null) years in the selected 2000-2020 range give growth_score 0 regardless
of the values; with 6 or more valid years the least-squares fit is performed
and its slope returned. -/
theorem growth_minimum_valid_years (ms : List MRow) (bt : BudgetTable)
    (name code : String) (r : BRow) (rest : List BRow)
    (hcode : dictGet (codeMapping ms) name = some code) (hne : code ≠ "")
    (hrow : bt.rows.filter (fun x => x.code == code) = r :: rest)
    (hstr : (rowValues bt r).any Cell.isStr = false) :
    ((validPoints (rowValues bt r)).length < 6 → growthScore ms bt name = 0)
    ∧ (6 ≤ (validPoints (rowValues bt r)).length →
        growthScore ms bt name = fitSlope (rowValues bt r)) := by
  constructor
  · intro h
    exact growthScore_of_body_ok
      (growthBody_few ms bt name code r rest hcode hne hrow hstr (by omega))
  · intro h
    exact growthScore_of_body_ok
      (growthBody_reaches ms bt name code r rest hcode hne hrow hstr (by omega))

/-- C6 witness: a country with exactly 5 valid years of scattered values gets
growth_score 0. -/
theorem growth_minimum_valid_years_wit : growthScore c1Ms c6Bt "A" = 0 := by
  refine (growth_minimum_valid_years c1Ms c6Bt "A" "AAA"
    { code := "AAA", values := [.num 100, .num 5, .num 700, .num 3, .num 99] } []
    (by decide) (by decide) (by decide) (by decide)).1 (by decide)

/-- C9: the growth column is a per-country map (one bad country cannot abort
the batch or affect another country's entry), a per-country exception degrades
that country's growth_score to 0, and a country missing from the country-code
lookup gets growth_score 0. -/
theorem growth_errors_per_country (ms : List MRow) (bt : BudgetTable) (sdf : List SRow) :
    ((analyze_growth_trajectory ms bt sdf).map (·.growth_score) =
        sdf.map (fun r => growthScore ms bt r.country))
    ∧ (∀ name e, growthBody ms bt name = .error e → growthScore ms bt name = 0)
    ∧ (∀ name, dictGet (codeMapping ms) name = none → growthScore ms bt name = 0) := by
  refine ⟨?_, fun name e h => growthScore_of_body_error h,
    fun name h => growthScore_of_lookup_none h⟩
  simp [analyze_growth_trajectory, List.map_map]

/-- C9 witness: on a batch where country A's series contains a raw string (so
the per-country body raises) and country B has clean data, A degrades to 0, B
is still fitted (slope 2), and a country absent from the lookup gets 0. -/
theorem growth_errors_per_country_wit :
    growthScore c7Ms c9Bt "A" = 0
    ∧ growthScore c7Ms c9Bt "Z" = 0
    ∧ (analyze_growth_trajectory c7Ms c9Bt c9Sdf).map (·.growth_score) = [0, 2] := by
  refine ⟨(growth_errors_per_country c7Ms c9Bt c9Sdf).2.1 "A" "TypeError: isnan" ?_,
    (growth_errors_per_country c7Ms c9Bt c9Sdf).2.2 "Z" (by decide),
    ?_⟩
  · simp +decide [growthBody, c7Ms, c9Bt, mkMRow, dictGet, codeMapping,
      selectedYears, List.range', rowValues, colGet, validPoints, List.enum,
      List.enumFrom, Cell.isStr, List.find?, List.filterMap_cons]
  · rw [(growth_errors_per_country c7Ms c9Bt c9Sdf).1]
    simp +decide [c9Sdf, growthScore, growthBody, c7Ms, c9Bt, mkMRow, dictGet,
      codeMapping, selectedYears, List.range', rowValues, colGet, validPoints, List.enum,
      List.enumFrom, fitSlope, olsSlope, mean, Cell.isStr, List.find?, List.filterMap_cons]
    norm_num

/-- C7: the normalized growth column is the min-max scaling of the raw growth
column over the whole country set; when the column's maximum equals its
minimum, every normalized value is 0 (and on a nonempty set those two cases
are exhaustive, since the minimum never exceeds the maximum). -/
theorem growth_normalization_minmax (ms : List MRow) (bt : BudgetTable) (sdf : List SRow) :
    (listMin (rawGrowthScores ms bt sdf) < listMax (rawGrowthScores ms bt sdf) →
      (analyze_growth_trajectory ms bt sdf).map (·.growth_score_normalized) =
        (rawGrowthScores ms bt sdf).map (fun g =>
          (g - listMin (rawGrowthScores ms bt sdf)) /
            (listMax (rawGrowthScores ms bt sdf) - listMin (rawGrowthScores ms bt sdf))))
    ∧ (listMax (rawGrowthScores ms bt sdf) = listMin (rawGrowthScores ms bt sdf) →
        ∀ r ∈ analyze_growth_trajectory ms bt sdf, r.growth_score_normalized = 0)
    ∧ (sdf ≠ [] →
        (listMax (rawGrowthScores ms bt sdf) ≠ listMin (rawGrowthScores ms bt sdf) ↔
          listMin (rawGrowthScores ms bt sdf) < listMax (rawGrowthScores ms bt sdf))) := by
  refine ⟨?_, ?_, ?_⟩
  · intro h
    simp [analyze_growth_trajectory, rawGrowthScores, List.map_map, h]
    intro a _ hc
    exact absurd h (not_lt.mpr hc)
  · intro h r hr
    have hnot : ¬ listMin (rawGrowthScores ms bt sdf) < listMax (rawGrowthScores ms bt sdf) :=
      not_lt.mpr (le_of_eq h)
    simp only [analyze_growth_trajectory, hnot, if_false, List.mem_map] at hr
    obtain ⟨r0, _, rfl⟩ := hr
    rfl
  · intro hne
    have hraw : rawGrowthScores ms bt sdf ≠ [] := by
      simp [rawGrowthScores, hne]
    have hle := listMin_le_listMax hraw
    constructor
    · intro h
      exact lt_of_le_of_ne hle (fun heq => h heq.symm)
    · intro h
      exact ne_of_gt h

/-- C7 witness: the theorem applied to concrete batches, one where the raw
scores are [2, 0] (min-max scaling gives [1, 0]) and one where every raw score
is 0 (all normalized values are 0). -/
theorem growth_normalization_minmax_wit :
    (analyze_growth_trajectory c7Ms c7Bt c7Sdf).map (·.growth_score_normalized) = [1, 0]
    ∧ (GRow.mk "A" 0 1 0 0 none) ∈ analyze_growth_trajectory c7Ms c7BtE c7Sdf
    ∧ (GRow.mk "A" 0 1 0 0 none).growth_score_normalized = 0 := by
  have hmem : (GRow.mk "A" 0 1 0 0 none) ∈ analyze_growth_trajectory c7Ms c7BtE c7Sdf := by
    simp +decide [analyze_growth_trajectory, rawGrowthScores, listMin, listMax, c7Sdf,
      growthScore, growthBody, c7Ms, c7BtE, mkMRow, dictGet, codeMapping, selectedYears,
      List.range', rowValues, colGet, validPoints, List.enum, List.enumFrom, Cell.isStr,
      List.find?, List.filterMap_cons]
  refine ⟨?_, hmem, ?_⟩
  · rw [(growth_normalization_minmax c7Ms c7Bt c7Sdf).1 ?hlt]
    case hlt =>
      simp +decide [rawGrowthScores, listMin, listMax, c7Sdf, growthScore, growthBody,
        c7Ms, c7Bt, mkMRow, dictGet, codeMapping, selectedYears, List.range', rowValues,
        colGet, validPoints, List.enum, List.enumFrom, fitSlope, olsSlope, mean,
        Cell.isStr, List.find?, List.filterMap_cons]
      norm_num
    simp +decide [rawGrowthScores, listMin, listMax, c7Sdf, growthScore, growthBody,
      c7Ms, c7Bt, mkMRow, dictGet, codeMapping, selectedYears, List.range', rowValues,
      colGet, validPoints, List.enum, List.enumFrom, fitSlope, olsSlope, mean,
      Cell.isStr, List.find?, List.filterMap_cons]
    norm_num
  · exact (growth_normalization_minmax c7Ms c7BtE c7Sdf).2.1 (by
      simp +decide [rawGrowthScores, listMin, listMax, c7Sdf, growthScore, growthBody,
        c7Ms, c7BtE, mkMRow, dictGet, codeMapping, selectedYears, List.range', rowValues,
        colGet, validPoints, List.enum, List.enumFrom, Cell.isStr, List.find?,
        List.filterMap_cons]) _ hmem

/-- C8: in the scorer's standardization, a column of the surviving set whose
values are all identical standardizes to 0 for every row (no undefined
result, whatever the square-root function does); a column with nonzero
population variance, with population standard deviation sigma (sigma squared
equal to the variance, which divides by N = the number of surviving rows),
standardizes each entry to (value - column mean) / sigma. -/
theorem standardize_constant_column (s : ℚ → ℚ) (cs : List MRow) (f : MRow → Cell)
    (_hf : f ∈ powerColumns) (hne : cs ≠ []) :
    ((∀ r ∈ cs, ∀ u ∈ cs, cellVal (f r) = cellVal (f u)) →
      ∀ r ∈ cs, zscore s (colVals f cs) (cellVal (f r)) = 0)
    ∧ (∀ σ, σ = s (popVar (colVals f cs)) → σ ^ 2 = popVar (colVals f cs) → 0 ≤ σ →
        popVar (colVals f cs) ≠ 0 →
        ∀ r ∈ cs, zscore s (colVals f cs) (cellVal (f r)) =
          (cellVal (f r) - mean (colVals f cs)) / σ)
    ∧ popVar (colVals f cs) =
        ((colVals f cs).map (fun x => (x - mean (colVals f cs)) ^ 2)).sum / cs.length := by
  refine ⟨?_, ?_, ?_⟩
  · intro hconst r hr
    have hcol : ∀ x ∈ colVals f cs, x = cellVal (f r) := by
      intro x hx
      obtain ⟨u, hu, rfl⟩ := List.mem_map.mp hx
      exact hconst u hu r hr
    have hcne : colVals f cs ≠ [] := by
      simp [colVals, hne]
    rw [zscore, mean_const hcne hcol, sub_self, zero_div]
  · intro σ hσ hsq hpos hvar r hr
    have hσne : σ ≠ 0 := by
      intro h0
      rw [h0] at hsq
      exact hvar (by simpa using hsq.symm)
    rw [zscore, scaleOf, if_neg (hσ ▸ hσne), ← hσ]
  · rw [popVar, colVals, List.length_map]

/-- C8 witness: the theorem applied to a two-row surviving set with a constant
population column (standardized values 0), and to a two-row set with
population values 1 and 3 (variance 1, so sigma = 1 and the entries
standardize to (value - mean) / sigma). -/
theorem standardize_constant_column_wit :
    zscore (fun _ => 5) (colVals (·.total_national_populations) c8CsConst)
      (cellVal ((mkMRow "A" "AAA" 1 4).total_national_populations)) = 0
    ∧ zscore (fun _ => 1) (colVals (·.total_national_populations) c8CsVar)
      (cellVal ((mkMRow "A" "AAA" 1 1).total_national_populations)) =
      (cellVal ((mkMRow "A" "AAA" 1 1).total_national_populations) -
        mean (colVals (·.total_national_populations) c8CsVar)) / 1 := by
  constructor
  · exact (standardize_constant_column (fun _ => 5) c8CsConst
      (·.total_national_populations) (by simp [powerColumns]) (by simp [c8CsConst])).1
      (by decide) _ (by simp [c8CsConst])
  · exact (standardize_constant_column (fun _ => 1) c8CsVar
      (·.total_national_populations) (by simp [powerColumns]) (by simp [c8CsVar])).2.1
      1 (by norm_num)
      (by norm_num [popVar, colVals, c8CsVar, mkMRow, cellVal, mean])
      (by norm_num)
      (by norm_num [popVar, colVals, c8CsVar, mkMRow, cellVal, mean])
      _ (by simp [c8CsVar])

/-- C10: running the full pipeline a second time, on the source frame as the
first run left it (the scorer coerces the global frame in place), produces the
same output: the coercion is idempotent and nothing else drifts between runs. -/
theorem pipeline_idempotent (s : ℚ → ℚ) (ms : List MRow) (bt : BudgetTable) (ty : ℤ) :
    (runPipeline s ((runPipeline s ms bt ty).1) bt ty).2 = (runPipeline s ms bt ty).2 := by
  have h1 : (runPipeline s ms bt ty).1 = ms.map coerceRow := rfl
  rw [h1]
  simp only [runPipeline, create_strength_score, map_coerceRow_idem]

/-- C5: when the scorer returns a table, every output row comes from an input
country whose seven indicator cells all coerce to numeric values, carries that
country's seven standardized values, and scores the mean of those seven values
(never a partial or missing score); a country with a null in any of the seven
coerced indicators never appears in the output (input country names assumed
distinct, as the data model requires). -/
theorem strength_rows_complete_case (s : ℚ → ℚ) (ms : List MRow) (out : List SRow)
    (hnd : (ms.map (·.country)).Nodup)
    (hout : (create_strength_score s ms).2 = .ok out) :
    (∀ r ∈ out, ∃ src ∈ ms, src.country = r.country ∧ completeRow (coerceRow src) = true ∧
        r.zvals = powerColumns.map (fun f =>
          zscore s (colVals f ((ms.map coerceRow).filter completeRow))
            (cellVal (f (coerceRow src)))) ∧
        r.strength_score = r.zvals.sum / r.zvals.length ∧ r.zvals.length = 7)
    ∧ (∀ src ∈ ms, completeRow (coerceRow src) = false → ∀ r ∈ out, r.country ≠ src.country) := by
  have hout2 : List.insertionSort strengthDesc
      (((ms.map coerceRow).filter completeRow).map
        (mkSRow s ((ms.map coerceRow).filter completeRow))) = out := by
    by_cases hemp : ((ms.map coerceRow).filter completeRow).isEmpty
    · rw [create_strength_score] at hout
      simp only [hemp, if_true] at hout
      exact absurd hout (by simp)
    · rw [create_strength_score] at hout
      simp only [hemp, if_false] at hout
      simpa using hout
  constructor
  · intro r hr
    rw [← hout2, List.mem_insertionSort] at hr
    obtain ⟨c, hc, rfl⟩ := List.mem_map.mp hr
    obtain ⟨hcmem, hccomp⟩ := List.mem_filter.mp hc
    obtain ⟨src, hsrc, rfl⟩ := List.mem_map.mp hcmem
    refine ⟨src, hsrc, rfl, hccomp, rfl, rfl, ?_⟩
    simp [mkSRow, powerColumns]
  · intro src hsrc hbad r hr hcountry
    rw [← hout2, List.mem_insertionSort] at hr
    obtain ⟨c, hc, rfl⟩ := List.mem_map.mp hr
    obtain ⟨hcmem, hccomp⟩ := List.mem_filter.mp hc
    obtain ⟨src2, hsrc2, rfl⟩ := List.mem_map.mp hcmem
    have hname : src2.country = src.country := hcountry
    have heq : src2 = src :=
      List.inj_on_of_nodup_map hnd hsrc2 hsrc hname
    rw [heq] at hccomp
    rw [hccomp] at hbad
    exact absurd hbad (by simp)

/-- C5 witness: the theorem applied to a concrete two-country frame; the top
output row is country A with all seven standardized values 1 and score 1. -/
theorem strength_rows_complete_case_wit :
    ∃ src ∈ c5Ms, src.country = c5OutA.country ∧ completeRow (coerceRow src) = true ∧
      c5OutA.zvals = powerColumns.map (fun f =>
        zscore (fun _ => 1) (colVals f ((c5Ms.map coerceRow).filter completeRow))
          (cellVal (f (coerceRow src)))) ∧
      c5OutA.strength_score = c5OutA.zvals.sum / c5OutA.zvals.length ∧
      c5OutA.zvals.length = 7 := by
  refine (strength_rows_complete_case (fun _ => 1) c5Ms [c5OutA, c5OutB] ?_ ?_).1 c5OutA ?_
  · decide
  · norm_num +decide [create_strength_score, c5Ms, mkMRow, coerceRow, toNumeric,
      completeRow, powerColumns, mkSRow, zscore, scaleOf, popVar, colVals, cellVal, mean,
      Cell.isNum, List.insertionSort, List.orderedInsert, strengthDesc, c5OutA, c5OutB]
  · simp

/-- C1 counterexample: the concrete gapped series `c1Vals` is exactly linear
with slope 1 in the 0-based sequential index over its valid years (the
spec-modelled regression yields 1), yet the source's estimator returns
217/244, because its regressor keeps the original list positions of the valid
years (the null year leaves a gap). -/
theorem growth_regressor_keeps_gaps_cex :
    growthScore c1Ms c1Bt "A" = 217 / 244
    ∧ spec_sequential_slope c1Vals = 1
    ∧ (217 / 244 : ℚ) ≠ 1
    ∧ rowValues c1Bt c1Row = c1Vals := by
  refine ⟨?_, ?_, by norm_num, by decide⟩
  · simp +decide [growthScore, growthBody, dictGet, codeMapping, c1Ms, c1Bt, c1Row,
      c1Vals, mkMRow, selectedYears, List.range', rowValues, colGet, validPoints,
      List.enum, List.enumFrom, fitSlope, olsSlope, mean, Cell.isStr, List.find?,
      List.filterMap_cons]
    norm_num
  · simp [spec_sequential_slope, c1Vals, List.filterMap_cons,
      (show List.range 7 = [0, 1, 2, 3, 4, 5, 6] by decide)]
    norm_num [olsSlope, mean]

/-- C1 amended: the estimator's regressor is the 0-based position of each valid
year within the selected year-column list, so positions of discarded null
years remain as gaps; for a series affine in that positional index with slope
m (in particular, any gap-free linear series), the fitted growth score is
exactly m. -/
theorem growth_slope_positional_linear (ms : List MRow) (bt : BudgetTable)
    (name code : String) (r : BRow) (rest : List BRow) (a m : ℚ)
    (hcode : dictGet (codeMapping ms) name = some code) (hne : code ≠ "")
    (hrow : bt.rows.filter (fun x => x.code == code) = r :: rest)
    (hstr : (rowValues bt r).any Cell.isStr = false)
    (hcount : 5 < (validPoints (rowValues bt r)).length)
    (hlin : ∀ p ∈ validPoints (rowValues bt r), p.2 = a + m * (p.1 : ℚ)) :
    growthScore ms bt name = m := by
  have hbody := growthBody_reaches ms bt name code r rest hcode hne hrow hstr hcount
  rw [growthScore_of_body_ok hbody, fitSlope]
  have hys : (validPoints (rowValues bt r)).map (·.2) =
      ((validPoints (rowValues bt r)).map (fun p => ((p.1 : ℕ) : ℚ))).map
        (fun x => a + m * x) := by
    rw [List.map_map]
    exact List.map_congr_left (fun p hp => by simpa using hlin p hp)
  rw [hys]
  refine olsSlope_linear a m (nodup_two_distinct (fit_xs_nodup (rowValues bt r)) ?_)
  simpa using by omega

/-- C1 witness: the amended theorem applied to a concrete dense series
10, 12, ..., 20 over 2000-2005 (slope 2 per year index). -/
theorem growth_slope_positional_linear_wit : growthScore c1Ms c1BtW "A" = 2 := by
  refine growth_slope_positional_linear c1Ms c1BtW "A" "AAA"
    { code := "AAA", values := [.num 10, .num 12, .num 14, .num 16, .num 18, .num 20] } []
    10 2 (by decide) (by decide) (by decide) (by decide) (by decide) ?_
  intro p hp
  simp +decide [validPoints, rowValues, c1BtW, selectedYears, List.range', colGet,
    List.enum, List.enumFrom, List.find?, List.filterMap_cons] at hp
  rcases hp with rfl | rfl | rfl | rfl | rfl | rfl <;> norm_num
